import Mathlib

/-!
Verification of the CursorCLI-MCPServer core against its specification.

This file shallowly embeds the TypeScript sources of the repository:

* src/security/validator.ts   (SecurityValidator)
* src/protocol/transport.ts   (StdioTransport.handleData)
* src/protocol/registry.ts    (ToolRegistry, zodToJsonSchema)
* src/protocol/executor.ts    (Semaphore, ToolExecutor.execute)
* src/protocol/handler.ts     (MCPProtocolHandler.handleInitialize, the initialize method)
* src/errors/handler.ts       (ErrorHandler)
* src/config/manager.ts       (ConfigurationManager.mergeEnvironmentVariables)

Paths are modelled as lists of POSIX segments; strings stay strings.
External library calls (fs.realpathSync, minimatch, JSON.parse) are
parameters of the embedding, since the code under verification is generic
in their behaviour.  Machine integers in the sources stay within JS safe
integer range, so Nat and Int are used directly.
-/

namespace CursorMCP

/-! ## Path arithmetic (node:path, POSIX semantics)

An absolute path is the list of its segments ("/a/b" is ["a", "b"]).
An input path given to the validator is either absolute or relative.
-/

/-- An input path handed to SecurityValidator: absolute or relative,
already split at separators. -/
inductive InputPath
  | abs (segs : List String)
  | rel (segs : List String)
deriving DecidableEq, Repr

/-- One step of path normalisation: empty segments and "." are dropped,
".." pops the previous segment (clamped at the absolute root, as
path.resolve and path.normalize do for absolute paths). -/
def normStep (acc : List String) (s : String) : List String :=
  if s = "" then acc
  else if s = "." then acc
  else if s = ".." then acc.dropLast
  else acc ++ [s]

/-- Normalisation of an absolute segment list, as performed by
path.resolve and path.normalize on an absolute POSIX path. -/
def normSegs (segs : List String) : List String :=
  segs.foldl normStep []

/-- path.resolve(base, input): an absolute input wins, a relative input is
joined to the base; the result is normalised. -/
def pathResolve (base : List String) : InputPath → List String
  | .abs segs => normSegs segs
  | .rel segs => normSegs (base ++ segs)

/-- Segments of path.relative(fromP, toP) for two normalised absolute
paths: strip the common prefix, then one ".." per remaining segment of
fromP followed by the remaining segments of toP. -/
def relSegs : List String → List String → List String
  | [], t => t
  | f :: fs, [] => (f :: fs).map (fun _ => "..")
  | f :: fs, t :: ts =>
    if f = t then relSegs fs ts
    else ((f :: fs).map fun _ => "..") ++ t :: ts

/-- path.relative(fromP, toP) rendered as the string Node returns. -/
def pathRelative (fromP toP : List String) : String :=
  String.intercalate "/" (relSegs fromP toP)

/-- String.prototype.startsWith, the string test the validator applies to
the rendered relative path. -/
def strStartsWith (s pre : String) : Bool :=
  pre.data.isPrefixOf s.data

/-- path.isAbsolute on a rendered POSIX path string. -/
def pathIsAbsoluteStr (s : String) : Bool :=
  strStartsWith s "/"

/-- Rendering of an absolute segment list as the string Node would show. -/
def absPathToString (segs : List String) : String :=
  "/" ++ String.intercalate "/" segs

/-- Rendering of an input path as the string originally supplied. -/
def inputPathToString : InputPath → String
  | .abs segs => "/" ++ String.intercalate "/" segs
  | .rel segs => String.intercalate "/" segs

/-! ## SecurityValidator (src/security/validator.ts) -/

/-- Ambient system facilities the validator calls: the physical path
resolution fs.realpathSync.native (none models a thrown ENOENT) and the
minimatch glob matcher applied with option dot:true. -/
structure SysEnv where
  realpath : List String → Option (List String)
  minimatch : String → String → Bool

/-- Error record returned by the validator (interface SecurityError). -/
inductive SecurityErrorCode
  | PATH_TRAVERSAL
  | OUTSIDE_PROJECT_ROOT
  | BLOCKED_PATTERN
deriving DecidableEq, Repr

/-- SecurityError payload: code, message and the attempted path. -/
structure SecurityError where
  code : SecurityErrorCode
  message : String
  attemptedPath : String
deriving DecidableEq, Repr

/-- Constructor options of SecurityValidator. -/
structure SecurityValidatorOptions where
  projectRoot : Option InputPath := none
  blockedPatterns : Option (List String) := none
  enforceProjectRoot : Option Bool := none

/-- Default glob denylist of the validator. -/
def DEFAULT_BLOCKED_PATTERNS : List String :=
  ["node_modules/**", ".git/**", "dist/**", "build/**", ".cursorcli-mcp/**"]

/-- State of a constructed SecurityValidator. -/
structure SecurityValidator where
  projectRoot : List String
  blockedPatterns : List String
  enforceProjectRoot : Bool

/-- The SecurityValidator constructor: the configured root (defaulting to
the working directory) is made absolute, then resolved to its physical
path when realpath succeeds; blockedPatterns defaults to the denylist and
enforceProjectRoot is true unless explicitly false. -/
def mkSecurityValidator (env : SysEnv) (cwd : List String)
    (options : SecurityValidatorOptions) : SecurityValidator :=
  let configuredRoot := options.projectRoot.getD (.abs cwd)
  let absoluteRoot := pathResolve cwd configuredRoot
  { projectRoot := (env.realpath absoluteRoot).getD absoluteRoot
    blockedPatterns := options.blockedPatterns.getD DEFAULT_BLOCKED_PATTERNS
    enforceProjectRoot := options.enforceProjectRoot.getD true }

/-- sanitizePath: resolve against the project root, then normalise. -/
def SecurityValidator.sanitizePath (v : SecurityValidator) (p : InputPath) :
    List String :=
  normSegs (pathResolve v.projectRoot p)

/-- Physical resolution of a candidate path inside isWithinProjectRoot:
realpath of the path itself, else realpath of its parent joined with the
basename, else the path unchanged. -/
def physTarget (env : SysEnv) (sanitized : List String) : List String :=
  match env.realpath sanitized with
  | some t => t
  | none =>
    match env.realpath sanitized.dropLast with
    | some dirReal =>
      dirReal ++ (match sanitized.getLast? with
        | some b => [b]
        | none => [])
    | none => sanitized

/-- isWithinProjectRoot: compare the physically resolved target with the
project root; inside iff the relative path neither starts with ".." nor
is absolute. -/
def SecurityValidator.isWithinProjectRoot (env : SysEnv)
    (v : SecurityValidator) (p : InputPath) : Bool :=
  let sanitized := v.sanitizePath p
  let target := physTarget env sanitized
  let relativePath := pathRelative v.projectRoot target
  !(strStartsWith relativePath "..") && !(pathIsAbsoluteStr relativePath)

/-- detectPathTraversal: only relative inputs count, only when
enforceProjectRoot is on, and only when the normalised form escapes. -/
def SecurityValidator.detectPathTraversal (env : SysEnv)
    (v : SecurityValidator) (p : InputPath) : Bool :=
  match p with
  | .abs _ => false
  | .rel _ =>
    if !v.enforceProjectRoot then false
    else
      let sanitized := v.sanitizePath p
      !(v.isWithinProjectRoot env (.abs sanitized))

/-- matchesBlockedPattern: the root-relative rendering of the sanitised
path is matched against every configured glob pattern. -/
def SecurityValidator.matchesBlockedPattern (env : SysEnv)
    (v : SecurityValidator) (p : InputPath) : Bool :=
  let sanitized := v.sanitizePath p
  let relativePath := pathRelative v.projectRoot sanitized
  v.blockedPatterns.any fun pattern => env.minimatch relativePath pattern

/-- validatePath: traversal check, then outside-root check (only when
enforced), then blocked-pattern check, else the sanitised path.  The
embedding is total, so the catch-all branch of the source never fires. -/
def SecurityValidator.validatePath (env : SysEnv) (v : SecurityValidator)
    (p : InputPath) : Except SecurityError (List String) :=
  if v.detectPathTraversal env p then
    .error ⟨.PATH_TRAVERSAL, "Path traversal detected. Access denied.",
      inputPathToString p⟩
  else
    let sanitized := v.sanitizePath p
    if v.enforceProjectRoot && !(v.isWithinProjectRoot env (.abs sanitized)) then
      .error ⟨.OUTSIDE_PROJECT_ROOT,
        "Access denied. Path is outside project root: " ++
          absPathToString v.projectRoot,
        inputPathToString p⟩
    else if v.matchesBlockedPattern env (.abs sanitized) then
      .error ⟨.BLOCKED_PATTERN, "Access denied. Path matches blocked pattern.",
        inputPathToString p⟩
    else
      .ok sanitized

/-! ## StdioTransport.handleData (src/protocol/transport.ts)

Incoming chunks are appended to a buffer, the buffer is split at newline
characters, the trailing (possibly incomplete) piece becomes the new
buffer, and every complete line is skipped (blank), parsed into a message
event, or reported as an invalid-JSON error event.  Chunks are lists of
characters and JSON.parse is a parameter of the embedding. -/

/-- Events visible to transport subscribers while data arrives. -/
inductive TransportEvent (M : Type)
  | message (m : M)
  | invalidJson
deriving DecidableEq, Repr

/-- String.prototype.split at the newline character: the pieces between
newlines, including the final piece after the last newline. -/
def splitNl : List Char → List (List Char)
  | [] => [[]]
  | c :: rest =>
    if c = '\n' then [] :: splitNl rest
    else
      match splitNl rest with
      | [] => [[c]]
      | l :: ls => (c :: l) :: ls

/-- The line loop of handleData: a line whose trimmed form is empty is
skipped, a line that parses emits one message event, a line that fails to
parse emits one error event, and in every case the loop continues with
the remaining lines. -/
def processLines {M : Type} (parse : List Char → Option M) :
    List (List Char) → List (TransportEvent M)
  | [] => []
  | line :: rest =>
    if line.all (fun c => c.isWhitespace) then processLines parse rest
    else
      match parse line with
      | some m => .message m :: processLines parse rest
      | none => .invalidJson :: processLines parse rest

/-- handleData: append the chunk to the buffer, split at newlines, keep
the trailing piece as the new buffer, process every complete line. -/
def handleData {M : Type} (parse : List Char → Option M)
    (buffer data : List Char) : List Char × List (TransportEvent M) :=
  let lines := splitNl (buffer ++ data)
  (lines.getLast?.getD [], processLines parse lines.dropLast)

/-- Sequential feeding of chunks through handleData, starting from a
buffer, collecting all emitted events in order. -/
def feedChunks {M : Type} (parse : List Char → Option M)
    (buffer : List Char) :
    List (List Char) → List Char × List (TransportEvent M)
  | [] => (buffer, [])
  | c :: cs =>
    let r1 := handleData parse buffer c
    let r2 := feedChunks parse r1.1 cs
    (r2.1, r1.2 ++ r2.2)

/-- Specification-side classification of one complete line: nothing for a
blank line, one message for a line that parses, one error for a line that
does not. -/
def lineEvent {M : Type} (parse : List Char → Option M)
    (line : List Char) : Option (TransportEvent M) :=
  if line.all (fun c => c.isWhitespace) then none
  else
    match parse line with
    | some m => some (.message m)
    | none => some .invalidJson

/-- Prepend a partial line onto the first piece of a split. -/
def mergeHead (x : List Char) : List (List Char) → List (List Char)
  | [] => []
  | l :: ls => (x ++ l) :: ls

/-! ## JSON values and Zod schemas (src/protocol/registry.ts)

The registry stores Zod schemas, converts them to JSON Schema fragments
for listing, and the executor validates call arguments against them. -/

/-- A JSON value. -/
inductive JValue
  | null
  | bool (b : Bool)
  | num (n : Int)
  | str (s : String)
  | arr (items : List JValue)
  | obj (fields : List (String × JValue))

/-- The Zod schema constructors the server registers and the hand-rolled
zodToJsonSchema converter inspects (ZodObject, ZodString with optional
description, ZodNumber, ZodBoolean, ZodEnum, ZodOptional, anything
else). -/
inductive ZodType
  | object (shape : List (String × ZodType))
  | string (description : Option String)
  | number
  | boolean
  | zenum (values : List String)
  | optional (inner : ZodType)
  | other

/-- instanceof z.ZodOptional. -/
def isOptionalZod : ZodType → Bool
  | .optional _ => true
  | _ => false

/-- First field of a JSON object with the given key. -/
def lookupField : List (String × JValue) → String → Option JValue
  | [], _ => none
  | (k, v) :: rest, key => if k = key then some v else lookupField rest key

/-- Required keys of an object shape: the non-optional fields, in order. -/
def requiredOf (shape : List (String × ZodType)) : List String :=
  (shape.filter fun kv => !(isOptionalZod kv.2)).map fun kv => kv.1

mutual

/-- zodToJsonSchema: a ZodObject becomes {type:"object", properties,
required (when non-empty)}; any other schema becomes {type:"object"}. -/
def zodToJsonSchema : ZodType → JValue
  | .object shape =>
    let required := requiredOf shape
    .obj ([("type", .str "object"), ("properties", .obj (propsOf shape))] ++
      (if required.isEmpty then [] else
        [("required", .arr (required.map JValue.str))]))
  | _ => .obj [("type", .str "object")]

/-- The per-field loop of zodToJsonSchema. -/
def propsOf : List (String × ZodType) → List (String × JValue)
  | [] => []
  | (key, value) :: rest => (key, fieldJson value) :: propsOf rest

/-- The per-field classification of zodToJsonSchema: strings carry their
description, enums their values; an optional field recurses with the full
converter on the inner type; everything else becomes {type:"object"}. -/
def fieldJson : ZodType → JValue
  | .string d =>
    .obj ([("type", .str "string")] ++
      (match d with
        | some s => [("description", .str s)]
        | none => []))
  | .number => .obj [("type", .str "number")]
  | .boolean => .obj [("type", .str "boolean")]
  | .zenum values =>
    .obj [("type", .str "string"), ("enum", .arr (values.map JValue.str))]
  | .optional inner => zodToJsonSchema inner
  | _ => .obj [("type", .str "object")]

end

mutual

/-- Does a JSON value conform to a Zod schema?  Models the checking side
of schema.parse: objects require every non-optional field to be present
and conforming, extra keys are tolerated (zod strips them). -/
def zodAccepts : ZodType → JValue → Bool
  | .object shape, .obj fields => zodAcceptsFields shape fields
  | .object _, _ => false
  | .string _, .str _ => true
  | .string _, _ => false
  | .number, .num _ => true
  | .number, _ => false
  | .boolean, .bool _ => true
  | .boolean, _ => false
  | .zenum values, .str s => values.contains s
  | .zenum _, _ => false
  | .optional inner, v => zodAccepts inner v
  | .other, _ => true

/-- Field-by-field conformance of an object against a shape. -/
def zodAcceptsFields : List (String × ZodType) → List (String × JValue) → Bool
  | [], _ => true
  | (key, fieldType) :: rest, fields =>
    (match lookupField fields key with
      | some v => zodAccepts fieldType v
      | none => isOptionalZod fieldType) && zodAcceptsFields rest fields

end

/-- The value schema.parse returns on success: objects are stripped to
their declared keys, everything else passes through. -/
def zodStrip : ZodType → JValue → JValue
  | .object shape, .obj fields =>
    .obj (shape.filterMap fun kv => (lookupField fields kv.1).map fun v => (kv.1, v))
  | _, v => v

/-- schema.parse: the validated value on success, none models a thrown
ZodError. -/
def zodParse (schema : ZodType) (v : JValue) : Option JValue :=
  if zodAccepts schema v then some (zodStrip schema v) else none

/-! ## ToolRegistry (src/protocol/registry.ts) -/

/-- One entry of a CallToolResult content array. -/
inductive ToolResponseContent
  | text (text : String)
  | image (data mimeType : String)
  | resource (uri : String) (mimeType resourceText : Option String)

/-- Result of one tool call. -/
structure CallToolResult where
  content : List ToolResponseContent
  isError : Option Bool := none

/-- Internal tool record of the registry (interface InternalTool).  The
handler is modelled as the value its promise resolves to. -/
structure InternalTool where
  name : String
  description : Option String
  schema : ZodType
  handler : JValue → CallToolResult
  enabled : Bool

/-- The registry map, keyed by name.  A JS Map preserves insertion order
and register refuses duplicates, so the list order is insertion order and
names are unique. -/
structure ToolRegistry where
  tools : List InternalTool

/-- Argument record of ToolRegistry.register. -/
structure ToolRegistration where
  name : String
  description : Option String := none
  schema : ZodType
  handler : JValue → CallToolResult

/-- Map.get by tool name. -/
def ToolRegistry.get (reg : ToolRegistry) (name : String) :
    Option InternalTool :=
  reg.tools.find? fun t => t.name == name

/-- Map.has by tool name. -/
def ToolRegistry.has (reg : ToolRegistry) (name : String) : Bool :=
  (reg.get name).isSome

/-- register: refuse a duplicate name, otherwise insert the tool with
enabled set to true. -/
def ToolRegistry.register (reg : ToolRegistry)
    (registration : ToolRegistration) : Except String ToolRegistry :=
  if reg.has registration.name then
    .error ("Tool already registered: " ++ registration.name)
  else
    .ok ⟨reg.tools ++
      [{ name := registration.name
         description := registration.description
         schema := registration.schema
         handler := registration.handler
         enabled := true }]⟩

/-- isEnabled: the enabled flag of the tool, false when absent. -/
def ToolRegistry.isEnabled (reg : ToolRegistry) (name : String) : Bool :=
  match reg.get name with
  | some tool => tool.enabled
  | none => false

/-- Public tool description returned by list(). -/
structure ToolDefinition where
  name : String
  description : Option String
  inputSchema : JValue

/-- list(): every enabled tool with its derived JSON Schema, in
registration order; disabled tools are skipped. -/
def ToolRegistry.list (reg : ToolRegistry) : List ToolDefinition :=
  (reg.tools.filter fun t => t.enabled).map fun t =>
    { name := t.name
      description := t.description
      inputSchema := zodToJsonSchema t.schema }

/-! ## ToolExecutor (src/protocol/executor.ts)

The Semaphore holds a permit count and a FIFO queue of waiters.  acquire
takes a permit when one is free; otherwise it pushes a resolver onto the
queue and the caller suspends until a release wakes it.  release returns
the permit and, when a waiter is queued, immediately hands it over.  The
waiters are indistinguishable, so the queue is modelled by its length.

execute is modelled up to its first suspension point after admission:
lookup, permit acquisition, argument validation, handler invocation and
the release in the finally block.  The timeout race is a real-time
behaviour outside the model (the handler is taken to settle first). -/

/-- Semaphore state: free permits and number of queued acquirers. -/
structure SemState where
  permits : Nat
  queue : Nat
deriving DecidableEq, Repr

/-- release(): return the permit; a queued waiter (if any) immediately
takes it back and resumes. -/
def SemState.release (s : SemState) : SemState :=
  if s.queue = 0 then { s with permits := s.permits + 1 }
  else { permits := s.permits, queue := s.queue - 1 }

/-- Errors execute can throw synchronously in the model. -/
inductive ExecError
  | toolNotFound (toolName : String)
  | zodValidation
deriving DecidableEq, Repr

/-- How one execute call ends in the model: a settled result, a thrown
error, or suspension in the semaphore queue awaiting a permit. -/
inductive ExecOutcome
  | result (r : CallToolResult)
  | thrown (e : ExecError)
  | blocked

/-- Observable trace of one execute call: final semaphore state, whether
the tool handler was invoked, and the outcome. -/
structure ExecTrace where
  sem : SemState
  handlerInvoked : Bool
  outcome : ExecOutcome

/-- ToolExecutor.execute: look the tool up (the enabled flag is not
consulted), acquire a permit (suspending when none is free), validate the
arguments (a failure throws and the finally block releases the permit),
then run the handler and release the permit. -/
def ToolExecutor.execute (reg : ToolRegistry) (sem : SemState)
    (toolName : String) (params : JValue) : ExecTrace :=
  match reg.get toolName with
  | none => ⟨sem, false, .thrown (.toolNotFound toolName)⟩
  | some tool =>
    if sem.permits > 0 then
      let acquired : SemState := { sem with permits := sem.permits - 1 }
      match zodParse tool.schema params with
      | none => ⟨acquired.release, false, .thrown .zodValidation⟩
      | some validatedParams =>
        ⟨acquired.release, true, .result (tool.handler validatedParams)⟩
    else
      ⟨{ sem with queue := sem.queue + 1 }, false, .blocked⟩

/-! ## Error taxonomy and ErrorHandler (src/errors/index.ts, handler.ts) -/

/-- The ErrorCode enum carried by the MCPError hierarchy. -/
inductive ErrorCode
  | VALIDATION_ERROR
  | SECURITY_ERROR
  | NOT_FOUND
  | INFRASTRUCTURE_ERROR
  | TIMEOUT_ERROR
  | RESOURCE_EXHAUSTED
  | BUSINESS_RULE_VIOLATION
  | INTERNAL_ERROR
deriving DecidableEq, Repr

/-- The string value of an ErrorCode enum member. -/
def ErrorCode.str : ErrorCode → String
  | .VALIDATION_ERROR => "VALIDATION_ERROR"
  | .SECURITY_ERROR => "SECURITY_ERROR"
  | .NOT_FOUND => "NOT_FOUND"
  | .INFRASTRUCTURE_ERROR => "INFRASTRUCTURE_ERROR"
  | .TIMEOUT_ERROR => "TIMEOUT_ERROR"
  | .RESOURCE_EXHAUSTED => "RESOURCE_EXHAUSTED"
  | .BUSINESS_RULE_VIOLATION => "BUSINESS_RULE_VIOLATION"
  | .INTERNAL_ERROR => "INTERNAL_ERROR"

/-- A thrown JS error value as the ErrorHandler discriminates it with
instanceof: one constructor per MCPError subclass, one for a direct
MCPError instance, and one for any plain Error carrying its name
(covering ProtocolVersionError, NotInitializedError, ToolNotFoundError
from the protocol handler and every other non-MCP error).  The context
field and the stack trace, which only decorate the data payload, are not
modelled. -/
inductive JSError
  | validationError (message : String) (field : Option String)
      (receivedValue : Option JValue)
  | securityError (message : String) (attemptedPath : Option String)
  | notFoundError (message : String) (resourceType resourceId : Option String)
  | infrastructureError (message : String) (infrastructureType : Option String)
      (causeMessage : Option String)
  | timeoutError (message : String) (operation : Option String)
      (timeoutMs : Option Nat)
  | resourceExhaustedError (message : String) (resourceType : Option String)
      (currentUsage limit : Option Nat)
  | businessRuleViolationError (message : String) (ruleId : Option String)
  | mcpError (code : ErrorCode) (message : String)
  | plainError (name message : String)

/-- instanceof MCPError. -/
def JSError.isMCPError : JSError → Bool
  | .plainError _ _ => false
  | _ => true

/-- The message of the error. -/
def JSError.message : JSError → String
  | .validationError m _ _ => m
  | .securityError m _ => m
  | .notFoundError m _ _ => m
  | .infrastructureError m _ _ => m
  | .timeoutError m _ _ => m
  | .resourceExhaustedError m _ _ _ => m
  | .businessRuleViolationError m _ => m
  | .mcpError _ m => m
  | .plainError _ m => m

/-- The ErrorCode the MCPError constructors set on their base class. -/
def JSError.errorCode : JSError → ErrorCode
  | .validationError _ _ _ => .VALIDATION_ERROR
  | .securityError _ _ => .SECURITY_ERROR
  | .notFoundError _ _ _ => .NOT_FOUND
  | .infrastructureError _ _ _ => .INFRASTRUCTURE_ERROR
  | .timeoutError _ _ _ => .TIMEOUT_ERROR
  | .resourceExhaustedError _ _ _ _ => .RESOURCE_EXHAUSTED
  | .businessRuleViolationError _ _ => .BUSINESS_RULE_VIOLATION
  | .mcpError c _ => c
  | .plainError _ _ => .INTERNAL_ERROR

/-- JSON-RPC error code constants. -/
def JSONRPCErrorCode.PARSE_ERROR : Int := -32700

def JSONRPCErrorCode.INVALID_REQUEST : Int := -32600

def JSONRPCErrorCode.METHOD_NOT_FOUND : Int := -32601

def JSONRPCErrorCode.INVALID_PARAMS : Int := -32602

def JSONRPCErrorCode.INTERNAL_ERROR : Int := -32603

/-- mapToJSONRPCCode: the instanceof cascade of the ErrorHandler over the
MCPError hierarchy (a plain error never reaches this method; the
catch-all branch covers direct MCPError instances). -/
def ErrorHandler.mapToJSONRPCCode : JSError → Int
  | .validationError _ _ _ => JSONRPCErrorCode.INVALID_PARAMS
  | .securityError _ _ => JSONRPCErrorCode.INVALID_REQUEST
  | .notFoundError _ _ _ => JSONRPCErrorCode.INVALID_REQUEST
  | .businessRuleViolationError _ _ => JSONRPCErrorCode.INVALID_REQUEST
  | .infrastructureError _ _ _ => JSONRPCErrorCode.INTERNAL_ERROR
  | .timeoutError _ _ _ => JSONRPCErrorCode.INTERNAL_ERROR
  | .resourceExhaustedError _ _ _ _ => JSONRPCErrorCode.INTERNAL_ERROR
  | _ => JSONRPCErrorCode.INTERNAL_ERROR

/-- A JSON-RPC request id: string, number, or null. -/
inductive RequestId
  | str (s : String)
  | num (n : Int)
  | null
deriving DecidableEq, Repr

/-- JSON-RPC error response assembled by the ErrorHandler (the constant
jsonrpc tag is left implicit; data holds errorCode plus the kind-specific
fields, without the environment-dependent stack trace). -/
structure ErrorResponse where
  id : RequestId
  code : Int
  message : String
  data : List (String × JValue)

/-- A data field present only when the source value is defined. -/
def optField (key : String) : Option JValue → List (String × JValue)
  | some v => [(key, v)]
  | none => []

/-- buildErrorData: errorCode plus the defined kind-specific fields, in
source order. -/
def ErrorHandler.buildErrorData (e : JSError) : List (String × JValue) :=
  [("errorCode", JValue.str e.errorCode.str)] ++
    (match e with
      | .validationError _ field received =>
        optField "field" (field.map JValue.str) ++
          optField "receivedValue" received
      | .securityError _ attemptedPath =>
        optField "attemptedPath" (attemptedPath.map JValue.str)
      | .notFoundError _ resourceType resourceId =>
        optField "resourceType" (resourceType.map JValue.str) ++
          optField "resourceId" (resourceId.map JValue.str)
      | .infrastructureError _ infrastructureType causeMessage =>
        optField "infrastructureType" (infrastructureType.map JValue.str) ++
          optField "cause" (causeMessage.map JValue.str)
      | .timeoutError _ operation timeoutMs =>
        optField "operation" (operation.map JValue.str) ++
          optField "timeoutMs" (timeoutMs.map fun n => JValue.num n)
      | .resourceExhaustedError _ resourceType currentUsage limit =>
        optField "resourceType" (resourceType.map JValue.str) ++
          optField "currentUsage" (currentUsage.map fun n => JValue.num n) ++
          optField "limit" (limit.map fun n => JValue.num n)
      | .businessRuleViolationError _ ruleId =>
        optField "ruleId" (ruleId.map JValue.str)
      | _ => [])

/-- handleError: an MCPError instance is mapped through mapToJSONRPCCode
with its structured data; any other error becomes an INTERNAL_ERROR
response with errorCode UNKNOWN_ERROR.  In both branches the response id
is the request id, null included. -/
def ErrorHandler.handleError (error : JSError) (requestId : RequestId) :
    ErrorResponse :=
  if error.isMCPError then
    { id := requestId
      code := ErrorHandler.mapToJSONRPCCode error
      message := error.message
      data := ErrorHandler.buildErrorData error }
  else
    { id := requestId
      code := JSONRPCErrorCode.INTERNAL_ERROR
      message := error.message
      data := [("errorCode", JValue.str "UNKNOWN_ERROR")] }

/-! ## MCPProtocolHandler (src/protocol/handler.ts) -/

/-- Client identity captured at the handshake. -/
structure ClientInfo where
  name : String
  version : String
deriving DecidableEq, Repr

/-- Server identity reported in the handshake reply. -/
structure ServerInfo where
  name : String
  version : String
deriving DecidableEq, Repr

/-- Client capabilities record of the initialize request. -/
structure ClientCapabilities where
  tools : Option (List (String × JValue)) := none
  prompts : Option (List (String × JValue)) := none
  resources : Option (List (String × JValue)) := none

/-- Server capabilities record of the initialize reply; a `some []`
models a present-but-empty capability object. -/
structure ServerCapabilities where
  tools : Option (List (String × JValue)) := none
  logging : Option (List (String × JValue)) := none
  prompts : Option (List (String × JValue)) := none
  resources : Option (List (String × JValue)) := none

/-- The initialize request. -/
structure InitializeRequest where
  protocolVersion : String
  capabilities : ClientCapabilities
  clientInfo : ClientInfo

/-- The initialize reply. -/
structure InitializeResult where
  protocolVersion : String
  capabilities : ServerCapabilities
  serverInfo : ServerInfo

/-- The supported protocol version set. -/
def SUPPORTED_PROTOCOL_VERSIONS : List String := ["2024-11-05"]

/-- The ProtocolVersionError thrown on a handshake mismatch: a plain
Error subclass, not part of the MCPError hierarchy. -/
def ProtocolVersionError (version : String) : JSError :=
  .plainError "ProtocolVersionError" ("Unsupported protocol version: " ++ version)

/-- The NotInitializedError thrown on calls before the handshake. -/
def NotInitializedError : JSError :=
  .plainError "NotInitializedError" "Server not initialized"

/-- The ToolNotFoundError thrown when callTool misses the registry. -/
def ToolNotFoundError (toolName : String) : JSError :=
  .plainError "ToolNotFoundError" ("Tool not found: " ++ toolName)

/-- Mutable state of an MCPProtocolHandler instance. -/
structure HandlerState where
  initialized : Bool
  clientInfo : Option ClientInfo
  serverInfo : ServerInfo

/-- isVersionSupported: exact membership in the supported set. -/
def MCPProtocolHandler.isVersionSupported (version : String) : Bool :=
  SUPPORTED_PROTOCOL_VERSIONS.contains version

/-- The initialize method: an unsupported protocol version throws (state
untouched);
otherwise the client info is recorded, the initialized flag set, and the
reply carries the requested version, {tools:{}, logging:{}} capabilities
and the server info. -/
def MCPProtocolHandler.handleInitialize (st : HandlerState)
    (request : InitializeRequest) :
    HandlerState × Except JSError InitializeResult :=
  if !(MCPProtocolHandler.isVersionSupported request.protocolVersion) then
    (st, .error (ProtocolVersionError request.protocolVersion))
  else
    ({ st with clientInfo := some request.clientInfo, initialized := true },
     .ok { protocolVersion := request.protocolVersion
           capabilities :=
             { tools := some [], logging := some [],
               prompts := none, resources := none }
           serverInfo := st.serverInfo })

/-! ## ConfigurationManager.mergeEnvironmentVariables (src/config) -/

/-- server section of the configuration schema. -/
structure ServerSection where
  name : String
  version : String
  maxConcurrentRequests : Nat
  requestTimeoutMs : Nat
deriving DecidableEq, Repr

/-- tools.fileOperations section. -/
structure FileOperationsSection where
  maxFileSize : Nat
  allowedDirectories : List String
  blockedPatterns : List String
deriving DecidableEq, Repr

/-- tools section. -/
structure ToolsSection where
  allowedTools : List String
  fileOperations : FileOperationsSection
deriving DecidableEq, Repr

/-- logging section; the level is the stored string. -/
structure LoggingSection where
  level : String
  outputs : List String
  logFile : Option String
  maxLogSize : Nat
  rotationCount : Nat
deriving DecidableEq, Repr

/-- security section. -/
structure SecuritySection where
  enforceProjectRoot : Bool
  allowDestructiveOperations : Bool
deriving DecidableEq, Repr

/-- The validated configuration record (ServerConfig). -/
structure ServerConfig where
  server : ServerSection
  tools : ToolsSection
  logging : LoggingSection
  security : SecuritySection
deriving DecidableEq, Repr

/-- DEFAULT_CONFIG from src/config/schema.ts. -/
def DEFAULT_CONFIG : ServerConfig :=
  { server :=
      { name := "cursorcli-mcp-server", version := "1.0.0",
        maxConcurrentRequests := 10, requestTimeoutMs := 5000 }
    tools :=
      { allowedTools :=
          ["read_file", "write_file", "list_directory", "get_project_info",
           "search_files", "get_workspace_structure", "open_file_in_editor",
           "get_active_file", "insert_text", "replace_text",
           "get_current_model", "track_token_usage", "get_model_statistics",
           "get_server_stats"]
        fileOperations :=
          { maxFileSize := 10485760
            allowedDirectories := []
            blockedPatterns :=
              ["node_modules/**", ".git/**", "dist/**", "build/**"] } }
    logging :=
      { level := "info", outputs := ["console", "file"],
        logFile := some ".cursorcli-mcp/logs/server.log",
        maxLogSize := 10485760, rotationCount := 5 }
    security :=
      { enforceProjectRoot := true, allowDestructiveOperations := false } }

/-- The five overlay variables as read from process.env; none models an
unset variable.  Each is guarded by a JS truthiness test, so an empty
string behaves like an unset variable. -/
structure EnvVars where
  logLevelVar : Option String := none
  maxConcurrentRequestsVar : Option String := none
  requestTimeoutMsVar : Option String := none
  enforceProjectRootVar : Option String := none
  allowDestructiveOperationsVar : Option String := none

/-- String.prototype.toLowerCase. -/
def jsToLowerCase (s : String) : String :=
  ⟨s.data.map Char.toLower⟩

/-- parseInt(s, 10): skip leading whitespace, take an optional sign, then
the longest leading run of decimal digits; NaN (none) when there is no
digit, trailing garbage ignored. -/
def jsParseInt (s : String) : Option Int :=
  let chars := s.data.dropWhile Char.isWhitespace
  let signAndRest : Int × List Char :=
    match chars with
    | c :: cs =>
      if c = '-' then (-1, cs) else if c = '+' then (1, cs) else (1, chars)
    | [] => (1, chars)
  let digits := signAndRest.2.takeWhile Char.isDigit
  if digits.isEmpty then none
  else
    some (signAndRest.1 *
      digits.foldl (fun acc c => acc * 10 + ((c.toNat : Int) - 48)) 0)

/-- The MCP_LOG_LEVEL block: a truthy value is lowercased and applied
only when it is one of the four levels. -/
def mergeLogLevel (env : EnvVars) (merged : ServerConfig) : ServerConfig :=
  match env.logLevelVar with
  | some s =>
    if s ≠ "" then
      let logLevel := jsToLowerCase s
      if ["debug", "info", "warn", "error"].contains logLevel then
        { merged with logging := { merged.logging with level := logLevel } }
      else merged
    else merged
  | none => merged

/-- The MCP_MAX_CONCURRENT_REQUESTS block: parseInt, applied only when a
number in [1, 100]. -/
def mergeMaxConcurrentRequests (env : EnvVars) (merged : ServerConfig) :
    ServerConfig :=
  match env.maxConcurrentRequestsVar with
  | some s =>
    if s ≠ "" then
      match jsParseInt s with
      | some value =>
        if 1 ≤ value ∧ value ≤ 100 then
          { merged with server :=
              { merged.server with maxConcurrentRequests := value.toNat } }
        else merged
      | none => merged
    else merged
  | none => merged

/-- The MCP_REQUEST_TIMEOUT_MS block: parseInt, applied only when a
number in [1000, 60000]. -/
def mergeRequestTimeoutMs (env : EnvVars) (merged : ServerConfig) :
    ServerConfig :=
  match env.requestTimeoutMsVar with
  | some s =>
    if s ≠ "" then
      match jsParseInt s with
      | some value =>
        if 1000 ≤ value ∧ value ≤ 60000 then
          { merged with server :=
              { merged.server with requestTimeoutMs := value.toNat } }
        else merged
      | none => merged
    else merged
  | none => merged

/-- The MCP_ENFORCE_PROJECT_ROOT block: any truthy value is applied as
the comparison with "true" (no validity check). -/
def mergeEnforceProjectRoot (env : EnvVars) (merged : ServerConfig) :
    ServerConfig :=
  match env.enforceProjectRootVar with
  | some s =>
    if s ≠ "" then
      { merged with security :=
          { merged.security with enforceProjectRoot := s == "true" } }
    else merged
  | none => merged

/-- The MCP_ALLOW_DESTRUCTIVE_OPERATIONS block, same shape. -/
def mergeAllowDestructiveOperations (env : EnvVars) (merged : ServerConfig) :
    ServerConfig :=
  match env.allowDestructiveOperationsVar with
  | some s =>
    if s ≠ "" then
      { merged with security :=
          { merged.security with allowDestructiveOperations := s == "true" } }
    else merged
  | none => merged

/-- mergeEnvironmentVariables: the five blocks in source order over a
copy of the file-loaded configuration. -/
def ConfigurationManager.mergeEnvironmentVariables (env : EnvVars)
    (config : ServerConfig) : ServerConfig :=
  mergeAllowDestructiveOperations env
    (mergeEnforceProjectRoot env
      (mergeRequestTimeoutMs env
        (mergeMaxConcurrentRequests env
          (mergeLogLevel env config))))

/-- The deterministic JSON-RPC code table of the amended claim, stated
from the spec side: ValidationError-kind errors give -32602; the
SecurityError kinds (PathTraversal, OutsideRoot, BlockedPattern),
NotFound and BusinessRuleViolation give -32600; infrastructure, timeout,
resource-exhaustion and internal kinds give -32603; and every plain
non-MCP error — which is how the ToolNotFound, ToolDisabled,
UnsupportedProtocolVersion and NotInitialized conditions surface — gives
-32603 through the generic branch. -/
def specJsonRpcCodeTable : JSError → Int
  | .validationError _ _ _ => -32602
  | .securityError _ _ => -32600
  | .notFoundError _ _ _ => -32600
  | .businessRuleViolationError _ _ => -32600
  | _ => -32603

/-! ### Concrete instances used in witnesses and counterexamples -/

/-- A fresh protocol handler state (uninitialized, no client). -/
def handlerState0 : HandlerState :=
  { initialized := false
    clientInfo := none
    serverInfo := { name := "cursorcli-mcp-server", version := "1.0.0" } }

/-- An initialize request with the supported protocol version. -/
def initRequestGood : InitializeRequest :=
  { protocolVersion := "2024-11-05"
    capabilities := {}
    clientInfo := { name := "test-client", version := "1.0.0" } }

/-- An initialize request with an unsupported protocol version. -/
def initRequestBad : InitializeRequest :=
  { protocolVersion := "1999-01-01"
    capabilities := {}
    clientInfo := { name := "t", version := "0" } }

/-- Overlay variables with one malformed or out-of-range value each. -/
def envMalformed : EnvVars :=
  { logLevelVar := some "invalid_level"
    maxConcurrentRequestsVar := some "not_a_number"
    requestTimeoutMsVar := some "999999"
    enforceProjectRootVar := some "yes"
    allowDestructiveOperationsVar := none }

/-- The default configuration after overlaying the malformed variables. -/
def mergedExample : ServerConfig :=
  ConfigurationManager.mergeEnvironmentVariables envMalformed DEFAULT_CONFIG

/-- Value of a string field of a JSON object, with "" as fallback. -/
def jGetStr (v : JValue) (key : String) : String :=
  match v with
  | .obj fields =>
    match lookupField fields key with
    | some (.str s) => s
    | _ => ""
  | _ => ""

/-- The echo registration of the executor unit tests: schema
z.object({value: z.string()}), handler echoing the value. -/
def echoRegistration : ToolRegistration :=
  { name := "echo"
    description := some "echo tool"
    schema := .object [("value", .string none)]
    handler := fun params => { content := [.text (jGetStr params "value")] } }

/-- Registry holding the echo tool, enabled (as produced by register). -/
def echoRegistry : ToolRegistry :=
  ⟨[{ name := "echo"
      description := some "echo tool"
      schema := .object [("value", .string none)]
      handler := fun params => { content := [.text (jGetStr params "value")] }
      enabled := true }]⟩

/-- Registry holding the echo tool after registry.disable("echo"). -/
def disabledEchoRegistry : ToolRegistry :=
  ⟨[{ name := "echo"
      description := some "echo tool"
      schema := .object [("value", .string none)]
      handler := fun params => { content := [.text (jGetStr params "value")] }
      enabled := false }]⟩

/-- Registry holding the concurrency test tool of the executor unit
tests: schema z.object({id: z.number(), delay: z.number()}). -/
def concurrentRegistry : ToolRegistry :=
  ⟨[{ name := "concurrent_tool"
      description := some "concurrency test tool"
      schema := .object [("id", .number), ("delay", .number)]
      handler := fun _ => { content := [.text "done"] }
      enabled := true }]⟩

/-- A segment is plain when normalisation keeps it as-is. -/
def plainSeg (s : String) : Prop :=
  s ≠ "" ∧ s ≠ "." ∧ s ≠ ".."

/-- Environment where no path exists physically and no pattern matches. -/
def envNone : SysEnv :=
  { realpath := fun _ => none, minimatch := fun _ _ => false }

/-- A validator constructed with enforceProjectRoot = false and an empty
denylist, rooted at "/p". -/
def permissiveValidator : SecurityValidator :=
  { projectRoot := ["p"], blockedPatterns := [], enforceProjectRoot := false }

/-- Environment whose glob matcher accepts exactly the pair used by the
C9 witness. -/
def envSecret : SysEnv :=
  { realpath := fun _ => none
    minimatch := fun relPath pattern =>
      relPath == "secret/x" && pattern == "secret/**" }

/-- A validator with enforcement off but a configured denylist. -/
def secretValidator : SecurityValidator :=
  { projectRoot := ["r"], blockedPatterns := ["secret/**"],
    enforceProjectRoot := false }

/-- Environment where every path physically resolves to itself. -/
def envRealId : SysEnv :=
  { realpath := fun segs => some segs, minimatch := fun _ _ => false }

/-- A validator rooted at "/r" with enforcement on and no denylist. -/
def strictValidator : SecurityValidator :=
  { projectRoot := ["r"], blockedPatterns := [], enforceProjectRoot := true }

/-! ### Normalisation lemmas -/

theorem normStep_plain {acc : List String} {s : String}
    (hacc : ∀ t ∈ acc, plainSeg t) :
    ∀ t ∈ normStep acc s, plainSeg t := by
  intro t ht
  unfold normStep at ht
  split at ht
  · exact hacc t ht
  · split at ht
    · exact hacc t ht
    · split at ht
      · exact hacc t (List.dropLast_subset _ ht)
      · rcases List.mem_append.mp ht with h | h
        · exact hacc t h
        · rcases List.mem_singleton.mp h with rfl
          refine ⟨?_, ?_, ?_⟩ <;> simp_all

theorem foldl_normStep_plain (l : List String) :
    ∀ acc, (∀ t ∈ acc, plainSeg t) →
    ∀ t ∈ l.foldl normStep acc, plainSeg t := by
  induction l with
  | nil => intro acc hacc t ht; exact hacc t ht
  | cons s l ih =>
    intro acc hacc t ht
    exact ih (normStep acc s) (normStep_plain hacc) t ht

/-- Every segment of a normalised path is plain. -/
theorem normSegs_plain (l : List String) :
    ∀ t ∈ normSegs l, plainSeg t :=
  foldl_normStep_plain l [] (by intro t ht; cases ht)

theorem foldl_normStep_of_plain (l : List String)
    (hl : ∀ t ∈ l, plainSeg t) :
    ∀ acc, l.foldl normStep acc = acc ++ l := by
  induction l with
  | nil => intro acc; simp
  | cons s l ih =>
    intro acc
    have hs : plainSeg s := hl s (List.mem_cons_self s l)
    have hstep : normStep acc s = acc ++ [s] := by
      unfold normStep
      rw [if_neg hs.1, if_neg hs.2.1, if_neg hs.2.2]
    rw [List.foldl_cons, hstep,
      ih (fun t ht => hl t (List.mem_cons_of_mem s ht))]
    simp

/-- Normalisation is idempotent. -/
theorem normSegs_idem (l : List String) :
    normSegs (normSegs l) = normSegs l := by
  have := foldl_normStep_of_plain (normSegs l) (normSegs_plain l) []
  simpa [normSegs] using this

/-- sanitizePath of an already sanitised absolute path is the identity;
this is how validatePath hands the sanitised string to the later checks. -/
theorem sanitizePath_abs_sanitize (v : SecurityValidator) (p : InputPath) :
    v.sanitizePath (.abs (v.sanitizePath p)) = v.sanitizePath p := by
  unfold SecurityValidator.sanitizePath pathResolve
  cases p <;> simp [normSegs_idem]

/-! ### Claim C1 and C9 theorems -/

/-- C1 counterexample: with enforceProjectRoot = false (a legal
configuration), validatePath accepts the input "../etc/passwd" and the
returned path resolves outside the resolved project root "/p": the
relative path from the root to the resolved result starts with "..".
So the claimed invariant does not hold in every configuration. -/
theorem validatePath_escape_when_not_enforced :
    SecurityValidator.validatePath envNone permissiveValidator
        (.rel ["..", "etc", "passwd"]) = .ok ["etc", "passwd"] ∧
    strStartsWith (pathRelative permissiveValidator.projectRoot
        (physTarget envNone ["etc", "passwd"])) ".." = true := by
  constructor
  · rfl
  · decide

/-- C1 (amended): for every validator whose enforceProjectRoot flag is
true, every path accepted by validatePath lies within the resolved
project root: the relative path from the root to the physically resolved
result neither starts with ".." nor is absolute. -/
theorem validatePath_ok_within_root (env : SysEnv) (v : SecurityValidator)
    (p : InputPath) (q : List String)
    (henf : v.enforceProjectRoot = true)
    (hok : v.validatePath env p = .ok q) :
    strStartsWith (pathRelative v.projectRoot (physTarget env q)) ".." = false ∧
    pathIsAbsoluteStr (pathRelative v.projectRoot (physTarget env q)) = false := by
  simp only [SecurityValidator.validatePath, henf, Bool.true_and] at hok
  split at hok
  · cases hok
  · split at hok
    · cases hok
    · split at hok
      · cases hok
      · rename_i hwithin hblocked
        obtain rfl : v.sanitizePath p = q := by
          cases hok; rfl
        have h2 : v.isWithinProjectRoot env (.abs (v.sanitizePath p)) = true := by
          simpa using hwithin
        unfold SecurityValidator.isWithinProjectRoot at h2
        rw [sanitizePath_abs_sanitize] at h2
        rw [Bool.and_eq_true] at h2
        constructor
        · simpa using h2.1
        · simpa using h2.2

/-- C1 amended witness: the validator rooted at "/r" with enforcement on
accepts "a", and the accepted path stays within the root. -/
theorem validatePath_ok_within_root_witness :
    strStartsWith (pathRelative strictValidator.projectRoot
        (physTarget envRealId ["r", "a"])) ".." = false ∧
    pathIsAbsoluteStr (pathRelative strictValidator.projectRoot
        (physTarget envRealId ["r", "a"])) = false :=
  validatePath_ok_within_root envRealId strictValidator (.rel ["a"]) ["r", "a"]
    rfl rfl

/-- C9: with enforceProjectRoot = false, the blocked-pattern denylist is
still enforced: any input whose root-relative sanitised form matches one
of the configured glob patterns is rejected with BLOCKED_PATTERN. -/
theorem validatePath_blocked_when_not_enforced (env : SysEnv)
    (v : SecurityValidator) (p : InputPath)
    (henf : v.enforceProjectRoot = false)
    (hmatch : (v.blockedPatterns.any fun pattern =>
      env.minimatch (pathRelative v.projectRoot (v.sanitizePath p)) pattern)
        = true) :
    v.validatePath env p =
      .error ⟨.BLOCKED_PATTERN,
        "Access denied. Path matches blocked pattern.",
        inputPathToString p⟩ := by
  have hdet : v.detectPathTraversal env p = false := by
    unfold SecurityValidator.detectPathTraversal
    cases p <;> simp [henf]
  have hmatch' : v.matchesBlockedPattern env (.abs (v.sanitizePath p)) = true := by
    unfold SecurityValidator.matchesBlockedPattern
    rw [sanitizePath_abs_sanitize]
    exact hmatch
  simp only [SecurityValidator.validatePath, hdet, henf, hmatch',
    Bool.false_and, Bool.false_eq_true, if_false, if_true]

/-- C9 witness: the configured pattern rejects "secret/x" even though
enforcement is off. -/
theorem validatePath_blocked_when_not_enforced_witness :
    SecurityValidator.validatePath envSecret secretValidator
        (.rel ["secret", "x"]) =
      .error ⟨.BLOCKED_PATTERN,
        "Access denied. Path matches blocked pattern.", "secret/x"⟩ :=
  validatePath_blocked_when_not_enforced envSecret secretValidator
    (.rel ["secret", "x"]) rfl (by decide)

/-! ### Claim C6: transport framing -/

theorem splitNl_ne_nil (l : List Char) : splitNl l ≠ [] := by
  cases l with
  | nil => simp [splitNl]
  | cons c rest =>
    unfold splitNl
    split
    · simp
    · cases h : splitNl rest <;> simp

theorem splitNl_no_nl (l : List Char) : ∀ s ∈ splitNl l, '\n' ∉ s := by
  induction l with
  | nil =>
    intro s hs
    simp only [splitNl, List.mem_singleton] at hs
    subst hs; simp
  | cons c rest ih =>
    intro s hs
    unfold splitNl at hs
    by_cases hc : c = '\n'
    · rw [if_pos hc] at hs
      rcases List.mem_cons.mp hs with rfl | h
      · simp
      · exact ih s h
    · rw [if_neg hc] at hs
      cases h : splitNl rest with
      | nil => exact absurd h (splitNl_ne_nil rest)
      | cons a as =>
        rw [h] at hs
        rcases List.mem_cons.mp hs with rfl | hmem
        · intro hin
          rcases List.mem_cons.mp hin with h1 | h2
          · exact hc h1.symm
          · exact ih a (h ▸ List.mem_cons_self a as) h2
        · exact ih s (h ▸ List.mem_cons_of_mem a hmem)

theorem splitNl_eq_single {l : List Char} (h : '\n' ∉ l) :
    splitNl l = [l] := by
  induction l with
  | nil => simp [splitNl]
  | cons c rest ih =>
    have hc : c ≠ '\n' := fun he => h (he ▸ List.mem_cons_self c rest)
    have hrest : '\n' ∉ rest := fun hm => h (List.mem_cons_of_mem c hm)
    unfold splitNl
    rw [if_neg hc, ih hrest]

theorem getLast?_append_right {α : Type} (X Y : List α) (h : Y ≠ []) :
    (X ++ Y).getLast? = Y.getLast? := by
  rw [List.getLast?_append]
  cases hy : Y.getLast? with
  | none => exact absurd (List.getLast?_eq_none_iff.mp hy) h
  | some y => rfl

theorem getLastDflt_mem {α : Type} (l : List α) (d : α) (h : l ≠ []) :
    l.getLast?.getD d ∈ l := by
  cases hl : l.getLast? with
  | none => exact absurd (List.getLast?_eq_none_iff.mp hl) h
  | some a => exact List.mem_of_getLast?_eq_some hl

theorem splitNl_append (a b : List Char) :
    splitNl (a ++ b) =
      (splitNl a).dropLast ++
        mergeHead ((splitNl a).getLast?.getD []) (splitNl b) := by
  induction a with
  | nil =>
    cases h : splitNl b with
    | nil => exact absurd h (splitNl_ne_nil b)
    | cons x xs => simp [splitNl, mergeHead, h]
  | cons c a ih =>
    obtain ⟨x, xs, hxa⟩ := List.exists_cons_of_ne_nil (splitNl_ne_nil a)
    by_cases hc : c = '\n'
    · subst hc
      have h1 : splitNl (('\n' :: a) ++ b) = [] :: splitNl (a ++ b) := by
        simp [splitNl]
      have h2 : splitNl ('\n' :: a) = [] :: splitNl a := by
        simp [splitNl]
      rw [h1, h2, ih, hxa]
      cases xs <;>
        simp [mergeHead, List.getLast?_cons_cons, List.dropLast_cons₂]
    · obtain ⟨y, ys, hyb⟩ := List.exists_cons_of_ne_nil (splitNl_ne_nil b)
      have h1 : splitNl ((c :: a) ++ b) =
          match splitNl (a ++ b) with
          | [] => [[c]]
          | l :: ls => (c :: l) :: ls := by
        simp only [List.cons_append, splitNl, if_neg hc, List.append_eq]
      have h2 : splitNl (c :: a) =
          match splitNl a with
          | [] => [[c]]
          | l :: ls => (c :: l) :: ls := by
        simp only [splitNl, if_neg hc, List.append_eq]
      rw [h1, ih, hxa, h2, hxa, hyb]
      cases xs <;>
        simp [mergeHead, List.getLast?_cons_cons, List.dropLast_cons₂]

theorem splitNl_append_no_nl (x rest : List Char) (hx : '\n' ∉ x) :
    splitNl (x ++ rest) = mergeHead x (splitNl rest) := by
  rw [splitNl_append, splitNl_eq_single hx]
  rfl

theorem processLines_append {M : Type} (parse : List Char → Option M)
    (A B : List (List Char)) :
    processLines parse (A ++ B) =
      processLines parse A ++ processLines parse B := by
  induction A with
  | nil => rfl
  | cons line rest ih =>
    simp only [List.cons_append, processLines]
    split
    · exact ih
    · cases parse line <;> simp [ih]

theorem processLines_eq_filterMap {M : Type} (parse : List Char → Option M)
    (lines : List (List Char)) :
    processLines parse lines = lines.filterMap (lineEvent parse) := by
  induction lines with
  | nil => rfl
  | cons line rest ih =>
    simp only [processLines, lineEvent, List.filterMap_cons]
    split
    · exact ih
    · cases h : parse line <;> simp [ih]

theorem feedChunks_spec {M : Type} (parse : List Char → Option M)
    (buffer : List Char) (chunks : List (List Char)) (hb : '\n' ∉ buffer) :
    feedChunks parse buffer chunks =
      ((splitNl (buffer ++ chunks.flatten)).getLast?.getD [],
       processLines parse (splitNl (buffer ++ chunks.flatten)).dropLast) := by
  induction chunks generalizing buffer with
  | nil =>
    simp [feedChunks, splitNl_eq_single hb, processLines]
  | cons c cs ih =>
    have hlast : '\n' ∉ (splitNl (buffer ++ c)).getLast?.getD [] :=
      splitNl_no_nl (buffer ++ c) _
        (getLastDflt_mem _ _ (splitNl_ne_nil (buffer ++ c)))
    have hbc : splitNl (buffer ++ (c :: cs).flatten) =
        (splitNl (buffer ++ c)).dropLast ++
          splitNl ((splitNl (buffer ++ c)).getLast?.getD [] ++ cs.flatten) := by
      rw [List.flatten_cons, show buffer ++ (c ++ cs.flatten) =
          (buffer ++ c) ++ cs.flatten by simp,
        splitNl_append (buffer ++ c) cs.flatten,
        splitNl_append_no_nl _ _ hlast]
    have htail : splitNl ((splitNl (buffer ++ c)).getLast?.getD [] ++ cs.flatten) ≠ [] :=
      splitNl_ne_nil _
    simp only [feedChunks, handleData]
    rw [ih _ hlast, hbc,
      getLast?_append_right _ _ htail,
      List.dropLast_append_of_ne_nil _ htail,
      processLines_append]

/-- C6: feeding any sequence of chunks through handleData delivers, in
order, exactly one event per complete non-blank line of the concatenated
input (a message when the line parses as JSON, an error event when it
does not, with processing continuing afterwards), skips blank lines, and
retains exactly the text after the last newline as the buffer; that
retained text contains no newline, so a partial line stays buffered until
a later chunk supplies its newline. -/
theorem transport_framing_spec {M : Type} (parse : List Char → Option M)
    (chunks : List (List Char)) :
    feedChunks parse [] chunks =
      ((splitNl chunks.flatten).getLast?.getD [],
       (splitNl chunks.flatten).dropLast.filterMap (lineEvent parse)) ∧
    ((splitNl chunks.flatten).getLast?.getD []).contains '\n' = false := by
  constructor
  · rw [feedChunks_spec parse [] chunks (by simp), processLines_eq_filterMap]
    simp
  · have h := splitNl_no_nl chunks.flatten _
      (getLastDflt_mem _ [] (splitNl_ne_nil chunks.flatten))
    simpa using h

/-! ### Claims C2, C3, C4: the ToolExecutor -/

/-- C2 (evidence of the code bug): with every permit held (limit
reached), a further execute call is enqueued on the semaphore and
suspends; it neither fails with ConcurrencyLimitExceeded nor produces any
error.  The executor's own unit test instead expects an immediate
"maximum concurrent executions" rejection. -/
theorem execute_queues_when_full :
    ToolExecutor.execute concurrentRegistry { permits := 0, queue := 0 }
        "concurrent_tool" (.obj [("id", .num 4), ("delay", .num 100)]) =
      ⟨{ permits := 0, queue := 1 }, false, .blocked⟩ := rfl

/-- C3 (evidence of the code bug): executing a registered-but-disabled
tool does not fail with ToolDisabled: the registry lookup used by execute
ignores the enabled flag, a permit is consumed (and later released) and
the handler runs to its normal result.  The executor's own unit tests
instead expect a "Tool disabled" rejection with no semaphore use. -/
theorem execute_runs_disabled_tool :
    ToolExecutor.execute disabledEchoRegistry { permits := 1, queue := 0 }
        "echo" (.obj [("value", .str "test")]) =
      ⟨{ permits := 1, queue := 0 }, true,
        .result { content := [.text "test"] }⟩ := rfl

/-- C4: when argument validation fails for a registered tool, the handler
is never invoked, the call fails with the thrown validation error
(surfaced to the client as InvalidArguments), and the permit acquired for
the call is released: with no queued waiters the permit count is back at
its pre-call value. -/
theorem execute_validation_failure_spec (reg : ToolRegistry)
    (sem : SemState) (toolName : String) (tool : InternalTool)
    (params : JValue)
    (hget : reg.get toolName = some tool)
    (hparse : zodParse tool.schema params = none)
    (hperm : 0 < sem.permits) (hqueue : sem.queue = 0) :
    ToolExecutor.execute reg sem toolName params =
      ⟨{ permits := sem.permits, queue := 0 }, false,
        .thrown .zodValidation⟩ := by
  simp only [ToolExecutor.execute, hget]
  rw [if_pos hperm, hparse]
  simp [SemState.release, hqueue, Nat.sub_add_cancel hperm]

/-- C4 witness: the echo tool rejects arguments missing its required
field; the permit count is restored and the handler does not run. -/
theorem execute_validation_failure_witness :
    ToolExecutor.execute echoRegistry { permits := 3, queue := 0 }
        "echo" (.obj [("invalid", .str "param")]) =
      ⟨{ permits := 3, queue := 0 }, false, .thrown .zodValidation⟩ :=
  execute_validation_failure_spec echoRegistry { permits := 3, queue := 0 }
    "echo" _ (.obj [("invalid", .str "param")]) rfl rfl (by decide) rfl

/-! ### Claim C10: registration creates enabled, visible tools -/

/-- C10: immediately after a successful register, the tool is enabled and
appears in the externally visible list(). -/
theorem register_enabled_and_listed (reg : ToolRegistry)
    (registration : ToolRegistration) (reg' : ToolRegistry)
    (h : reg.register registration = .ok reg') :
    reg'.isEnabled registration.name = true ∧
    (reg'.list.any fun d => d.name == registration.name) = true := by
  unfold ToolRegistry.register at h
  split at h
  · cases h
  · rename_i hhas
    obtain rfl : (⟨reg.tools ++
        [{ name := registration.name
           description := registration.description
           schema := registration.schema
           handler := registration.handler
           enabled := true }]⟩ : ToolRegistry) = reg' := by
      cases h; rfl
    have hnone : (reg.get registration.name) = none := by
      cases hg : reg.get registration.name with
      | none => rfl
      | some t =>
        exact absurd (by simp [ToolRegistry.has, hg]) hhas
    have hfind : (reg.tools.find? fun t => t.name == registration.name)
        = none := by
      unfold ToolRegistry.get at hnone
      exact hnone
    constructor
    · unfold ToolRegistry.isEnabled ToolRegistry.get
      rw [List.find?_append, hfind]
      simp [List.find?]
    · unfold ToolRegistry.list
      simp [List.filter_append]

/-- C10 witness: registering the echo tool into the empty registry yields
a registry where echo is enabled and listed. -/
theorem register_enabled_and_listed_witness :
    (echoRegistry.isEnabled "echo") = true ∧
    (echoRegistry.list.any fun d => d.name == "echo") = true :=
  register_enabled_and_listed ⟨[]⟩ echoRegistration echoRegistry rfl

/-! ### Claim C5: the initialize handshake -/

/-- C5: from the uninitialized state, a supported protocol version
records the client info, marks the session initialized and replies with
exactly the requested version, {tools:{}, logging:{}} capabilities and
the server info; an unsupported version throws ProtocolVersionError and
leaves the state untouched — still uninitialized, no client info
recorded. -/
theorem initialize_spec (st : HandlerState) (request : InitializeRequest)
    (hinit : st.initialized = false) (hclient : st.clientInfo = none) :
    (MCPProtocolHandler.isVersionSupported request.protocolVersion = true →
      MCPProtocolHandler.handleInitialize st request =
        ({ initialized := true, clientInfo := some request.clientInfo,
           serverInfo := st.serverInfo },
         .ok { protocolVersion := request.protocolVersion
               capabilities := { tools := some [], logging := some [],
                                 prompts := none, resources := none }
               serverInfo := st.serverInfo })) ∧
    (MCPProtocolHandler.isVersionSupported request.protocolVersion = false →
      MCPProtocolHandler.handleInitialize st request =
        (st, .error (ProtocolVersionError request.protocolVersion)) ∧
      (MCPProtocolHandler.handleInitialize st request).1.initialized = false ∧
      (MCPProtocolHandler.handleInitialize st request).1.clientInfo = none) := by
  constructor
  · intro hsup
    simp [MCPProtocolHandler.handleInitialize, hsup]
  · intro hsup
    simp [MCPProtocolHandler.handleInitialize, hsup, hinit, hclient]

/-- C5 witness: concrete handshakes at the supported version "2024-11-05"
and the unsupported "1999-01-01". -/
theorem initialize_spec_witness :
    MCPProtocolHandler.handleInitialize handlerState0 initRequestGood =
      ({ initialized := true,
         clientInfo := some { name := "test-client", version := "1.0.0" },
         serverInfo := { name := "cursorcli-mcp-server", version := "1.0.0" } },
       .ok { protocolVersion := "2024-11-05"
             capabilities := { tools := some [], logging := some [],
                               prompts := none, resources := none }
             serverInfo := { name := "cursorcli-mcp-server",
                             version := "1.0.0" } }) ∧
    MCPProtocolHandler.handleInitialize handlerState0 initRequestBad =
      (handlerState0, .error (ProtocolVersionError "1999-01-01")) :=
  ⟨(initialize_spec handlerState0 initRequestGood rfl rfl).1 (by decide),
   ((initialize_spec handlerState0 initRequestBad rfl rfl).2 (by decide)).1⟩

/-! ### Claim C7: environment overlay -/

theorem mergeLogLevel_server (env : EnvVars) (c : ServerConfig) :
    (mergeLogLevel env c).server = c.server := by
  unfold mergeLogLevel
  dsimp only
  repeat' split
  all_goals rfl

theorem mergeLogLevel_security (env : EnvVars) (c : ServerConfig) :
    (mergeLogLevel env c).security = c.security := by
  unfold mergeLogLevel
  dsimp only
  repeat' split
  all_goals rfl

theorem mergeMaxConcurrentRequests_logging (env : EnvVars) (c : ServerConfig) :
    (mergeMaxConcurrentRequests env c).logging = c.logging := by
  unfold mergeMaxConcurrentRequests
  dsimp only
  repeat' split
  all_goals rfl

theorem mergeMaxConcurrentRequests_security (env : EnvVars) (c : ServerConfig) :
    (mergeMaxConcurrentRequests env c).security = c.security := by
  unfold mergeMaxConcurrentRequests
  dsimp only
  repeat' split
  all_goals rfl

theorem mergeMaxConcurrentRequests_requestTimeoutMs (env : EnvVars)
    (c : ServerConfig) :
    (mergeMaxConcurrentRequests env c).server.requestTimeoutMs =
      c.server.requestTimeoutMs := by
  unfold mergeMaxConcurrentRequests
  dsimp only
  repeat' split
  all_goals rfl

theorem mergeRequestTimeoutMs_logging (env : EnvVars) (c : ServerConfig) :
    (mergeRequestTimeoutMs env c).logging = c.logging := by
  unfold mergeRequestTimeoutMs
  dsimp only
  repeat' split
  all_goals rfl

theorem mergeRequestTimeoutMs_security (env : EnvVars) (c : ServerConfig) :
    (mergeRequestTimeoutMs env c).security = c.security := by
  unfold mergeRequestTimeoutMs
  dsimp only
  repeat' split
  all_goals rfl

theorem mergeRequestTimeoutMs_maxConcurrentRequests (env : EnvVars)
    (c : ServerConfig) :
    (mergeRequestTimeoutMs env c).server.maxConcurrentRequests =
      c.server.maxConcurrentRequests := by
  unfold mergeRequestTimeoutMs
  dsimp only
  repeat' split
  all_goals rfl

theorem mergeEnforceProjectRoot_logging (env : EnvVars) (c : ServerConfig) :
    (mergeEnforceProjectRoot env c).logging = c.logging := by
  unfold mergeEnforceProjectRoot
  dsimp only
  repeat' split
  all_goals rfl

theorem mergeEnforceProjectRoot_server (env : EnvVars) (c : ServerConfig) :
    (mergeEnforceProjectRoot env c).server = c.server := by
  unfold mergeEnforceProjectRoot
  dsimp only
  repeat' split
  all_goals rfl

theorem mergeAllowDestructiveOperations_logging (env : EnvVars)
    (c : ServerConfig) :
    (mergeAllowDestructiveOperations env c).logging = c.logging := by
  unfold mergeAllowDestructiveOperations
  dsimp only
  repeat' split
  all_goals rfl

theorem mergeAllowDestructiveOperations_server (env : EnvVars)
    (c : ServerConfig) :
    (mergeAllowDestructiveOperations env c).server = c.server := by
  unfold mergeAllowDestructiveOperations
  dsimp only
  repeat' split
  all_goals rfl

theorem mergeAllowDestructiveOperations_enforce (env : EnvVars)
    (c : ServerConfig) :
    (mergeAllowDestructiveOperations env c).security.enforceProjectRoot =
      c.security.enforceProjectRoot := by
  unfold mergeAllowDestructiveOperations
  dsimp only
  repeat' split
  all_goals rfl

theorem mergeLogLevel_skip (env : EnvVars) (c : ServerConfig) (s : String)
    (h1 : env.logLevelVar = some s)
    (h2 : (["debug", "info", "warn", "error"].contains (jsToLowerCase s))
      = false) :
    mergeLogLevel env c = c := by
  unfold mergeLogLevel
  rw [h1]
  by_cases hs : s = ""
  · simp [hs]
  · dsimp only
    rw [if_pos hs, if_neg (by rw [h2]; exact Bool.false_ne_true)]

theorem mergeMaxConcurrentRequests_nan (env : EnvVars) (c : ServerConfig)
    (s : String) (h1 : env.maxConcurrentRequestsVar = some s)
    (h2 : jsParseInt s = none) :
    mergeMaxConcurrentRequests env c = c := by
  unfold mergeMaxConcurrentRequests
  rw [h1]
  by_cases hs : s = "" <;> simp [hs, h2]

theorem mergeMaxConcurrentRequests_outOfRange (env : EnvVars)
    (c : ServerConfig) (s : String) (v : Int)
    (h1 : env.maxConcurrentRequestsVar = some s)
    (h2 : jsParseInt s = some v) (h3 : ¬(1 ≤ v ∧ v ≤ 100)) :
    mergeMaxConcurrentRequests env c = c := by
  unfold mergeMaxConcurrentRequests
  rw [h1]
  by_cases hs : s = "" <;> simp [hs, h2, h3]

theorem mergeRequestTimeoutMs_nan (env : EnvVars) (c : ServerConfig)
    (s : String) (h1 : env.requestTimeoutMsVar = some s)
    (h2 : jsParseInt s = none) :
    mergeRequestTimeoutMs env c = c := by
  unfold mergeRequestTimeoutMs
  rw [h1]
  by_cases hs : s = "" <;> simp [hs, h2]

theorem mergeRequestTimeoutMs_outOfRange (env : EnvVars) (c : ServerConfig)
    (s : String) (v : Int) (h1 : env.requestTimeoutMsVar = some s)
    (h2 : jsParseInt s = some v) (h3 : ¬(1000 ≤ v ∧ v ≤ 60000)) :
    mergeRequestTimeoutMs env c = c := by
  unfold mergeRequestTimeoutMs
  rw [h1]
  by_cases hs : s = "" <;> simp [hs, h2, h3]

theorem mergeEnforceProjectRoot_set (env : EnvVars) (c : ServerConfig)
    (s : String) (h1 : env.enforceProjectRootVar = some s) (h2 : s ≠ "") :
    (mergeEnforceProjectRoot env c).security.enforceProjectRoot =
      (s == "true") := by
  unfold mergeEnforceProjectRoot
  rw [h1]
  dsimp only
  rw [if_pos h2]

theorem mergeEnforceProjectRoot_none (env : EnvVars) (c : ServerConfig)
    (h1 : env.enforceProjectRootVar = none) :
    mergeEnforceProjectRoot env c = c := by
  unfold mergeEnforceProjectRoot
  rw [h1]

theorem mergeEnforceProjectRoot_empty (env : EnvVars) (c : ServerConfig)
    (h1 : env.enforceProjectRootVar = some "") :
    mergeEnforceProjectRoot env c = c := by
  unfold mergeEnforceProjectRoot
  rw [h1]
  simp

theorem mergeAllowDestructiveOperations_set (env : EnvVars)
    (c : ServerConfig) (s : String)
    (h1 : env.allowDestructiveOperationsVar = some s) (h2 : s ≠ "") :
    (mergeAllowDestructiveOperations env c).security.allowDestructiveOperations
      = (s == "true") := by
  unfold mergeAllowDestructiveOperations
  rw [h1]
  dsimp only
  rw [if_pos h2]

/-- C7 counterexample: with the file configuration carrying
enforceProjectRoot = true, the malformed value "yes" in
MCP_ENFORCE_PROJECT_ROOT is not ignored: the merge coerces it with the
comparison (value == "true") and overrides the file value to false. -/
theorem mergeEnvironmentVariables_enforce_not_ignored :
    (ConfigurationManager.mergeEnvironmentVariables
        { enforceProjectRootVar := some "yes" } DEFAULT_CONFIG
      ).security.enforceProjectRoot = false ∧
    DEFAULT_CONFIG.security.enforceProjectRoot = true :=
  ⟨rfl, rfl⟩

/-- C7 (amended): for MCP_LOG_LEVEL, MCP_MAX_CONCURRENT_REQUESTS and
MCP_REQUEST_TIMEOUT_MS a malformed or out-of-range value is silently
ignored, leaving the file value; the two boolean variables
(MCP_ENFORCE_PROJECT_ROOT, MCP_ALLOW_DESTRUCTIVE_OPERATIONS) are instead
applied whenever the variable is non-empty, as the comparison
(value == "true") — so a malformed value overrides the file value with
false — and only an unset or empty variable leaves the file value. -/
theorem mergeEnvironmentVariables_spec (env : EnvVars)
    (config : ServerConfig) :
    (∀ s, env.logLevelVar = some s →
      (["debug", "info", "warn", "error"].contains (jsToLowerCase s))
        = false →
      (ConfigurationManager.mergeEnvironmentVariables env config
        ).logging.level = config.logging.level) ∧
    (∀ s, env.maxConcurrentRequestsVar = some s → jsParseInt s = none →
      (ConfigurationManager.mergeEnvironmentVariables env config
        ).server.maxConcurrentRequests =
        config.server.maxConcurrentRequests) ∧
    (∀ s v, env.maxConcurrentRequestsVar = some s → jsParseInt s = some v →
      ¬(1 ≤ v ∧ v ≤ 100) →
      (ConfigurationManager.mergeEnvironmentVariables env config
        ).server.maxConcurrentRequests =
        config.server.maxConcurrentRequests) ∧
    (∀ s, env.requestTimeoutMsVar = some s → jsParseInt s = none →
      (ConfigurationManager.mergeEnvironmentVariables env config
        ).server.requestTimeoutMs = config.server.requestTimeoutMs) ∧
    (∀ s v, env.requestTimeoutMsVar = some s → jsParseInt s = some v →
      ¬(1000 ≤ v ∧ v ≤ 60000) →
      (ConfigurationManager.mergeEnvironmentVariables env config
        ).server.requestTimeoutMs = config.server.requestTimeoutMs) ∧
    (∀ s, env.enforceProjectRootVar = some s → s ≠ "" →
      (ConfigurationManager.mergeEnvironmentVariables env config
        ).security.enforceProjectRoot = (s == "true")) ∧
    (env.enforceProjectRootVar = none →
      (ConfigurationManager.mergeEnvironmentVariables env config
        ).security.enforceProjectRoot =
        config.security.enforceProjectRoot) ∧
    (env.enforceProjectRootVar = some "" →
      (ConfigurationManager.mergeEnvironmentVariables env config
        ).security.enforceProjectRoot =
        config.security.enforceProjectRoot) ∧
    (∀ s, env.allowDestructiveOperationsVar = some s → s ≠ "" →
      (ConfigurationManager.mergeEnvironmentVariables env config
        ).security.allowDestructiveOperations = (s == "true")) := by
  refine ⟨?_, ?_, ?_, ?_, ?_, ?_, ?_, ?_, ?_⟩
  · intro s h1 h2
    unfold ConfigurationManager.mergeEnvironmentVariables
    rw [mergeAllowDestructiveOperations_logging,
      mergeEnforceProjectRoot_logging, mergeRequestTimeoutMs_logging,
      mergeMaxConcurrentRequests_logging, mergeLogLevel_skip env config s h1 h2]
  · intro s h1 h2
    unfold ConfigurationManager.mergeEnvironmentVariables
    rw [mergeAllowDestructiveOperations_server,
      mergeEnforceProjectRoot_server,
      mergeRequestTimeoutMs_maxConcurrentRequests,
      mergeMaxConcurrentRequests_nan env _ s h1 h2, mergeLogLevel_server]
  · intro s v h1 h2 h3
    unfold ConfigurationManager.mergeEnvironmentVariables
    rw [mergeAllowDestructiveOperations_server,
      mergeEnforceProjectRoot_server,
      mergeRequestTimeoutMs_maxConcurrentRequests,
      mergeMaxConcurrentRequests_outOfRange env _ s v h1 h2 h3,
      mergeLogLevel_server]
  · intro s h1 h2
    unfold ConfigurationManager.mergeEnvironmentVariables
    rw [mergeAllowDestructiveOperations_server,
      mergeEnforceProjectRoot_server,
      mergeRequestTimeoutMs_nan env _ s h1 h2,
      mergeMaxConcurrentRequests_requestTimeoutMs, mergeLogLevel_server]
  · intro s v h1 h2 h3
    unfold ConfigurationManager.mergeEnvironmentVariables
    rw [mergeAllowDestructiveOperations_server,
      mergeEnforceProjectRoot_server,
      mergeRequestTimeoutMs_outOfRange env _ s v h1 h2 h3,
      mergeMaxConcurrentRequests_requestTimeoutMs, mergeLogLevel_server]
  · intro s h1 h2
    unfold ConfigurationManager.mergeEnvironmentVariables
    rw [mergeAllowDestructiveOperations_enforce,
      mergeEnforceProjectRoot_set env _ s h1 h2]
  · intro h1
    unfold ConfigurationManager.mergeEnvironmentVariables
    rw [mergeAllowDestructiveOperations_enforce,
      mergeEnforceProjectRoot_none env _ h1,
      mergeRequestTimeoutMs_security, mergeMaxConcurrentRequests_security,
      mergeLogLevel_security]
  · intro h1
    unfold ConfigurationManager.mergeEnvironmentVariables
    rw [mergeAllowDestructiveOperations_enforce,
      mergeEnforceProjectRoot_empty env _ h1,
      mergeRequestTimeoutMs_security, mergeMaxConcurrentRequests_security,
      mergeLogLevel_security]
  · intro s h1 h2
    unfold ConfigurationManager.mergeEnvironmentVariables
    rw [mergeAllowDestructiveOperations_set env _ s h1 h2]

/-- C7 amended witness: with a malformed value in each variable, the
three non-boolean settings keep their file values while the boolean
enforceProjectRoot is coerced to ("yes" == "true") = false. -/
theorem mergeEnvironmentVariables_spec_witness :
    mergedExample.logging.level = "info" ∧
    mergedExample.server.maxConcurrentRequests = 10 ∧
    mergedExample.server.requestTimeoutMs = 5000 ∧
    mergedExample.security.enforceProjectRoot = false :=
  ⟨(mergeEnvironmentVariables_spec envMalformed DEFAULT_CONFIG).1
      "invalid_level" rfl (by decide),
   (mergeEnvironmentVariables_spec envMalformed DEFAULT_CONFIG).2.1
      "not_a_number" rfl (by decide),
   (mergeEnvironmentVariables_spec envMalformed DEFAULT_CONFIG).2.2.2.2.1
      "999999" 999999 rfl (by decide) (by decide),
   (mergeEnvironmentVariables_spec envMalformed DEFAULT_CONFIG).2.2.2.2.2.1
      "yes" rfl (by decide)⟩

/-! ### Claim C8: the JSON-RPC error mapping -/

/-- C8 counterexample: the UnsupportedProtocolVersion condition surfaces
as the plain ProtocolVersionError, so handleError maps it through the
generic branch to -32603 — not to -32600 as the claim's table states. -/
theorem handleError_unsupported_version_code :
    (ErrorHandler.handleError (ProtocolVersionError "1999-01-01")
        (.num 1)).code = -32603 ∧
    (((-32603 : Int) == -32600)) = false :=
  ⟨rfl, rfl⟩

/-- C8 (amended): handleError always echoes the request id, null
included, and its JSON-RPC code follows the deterministic table in which
the MCPError classes map as claimed (-32602 for validation, -32600 for
security, not-found and business-rule kinds, -32603 for infrastructure,
timeout, resource-exhaustion and internal kinds) while the protocol-level
plain errors (UnsupportedProtocolVersion, NotInitialized, ToolNotFound,
ToolDisabled) fall to the generic -32603 branch. -/
theorem handleError_spec (e : JSError) (r : RequestId) :
    (ErrorHandler.handleError e r).id = r ∧
    (ErrorHandler.handleError e r).code = specJsonRpcCodeTable e := by
  cases e <;>
    simp [ErrorHandler.handleError, ErrorHandler.mapToJSONRPCCode,
      specJsonRpcCodeTable, JSError.isMCPError,
      JSONRPCErrorCode.INVALID_PARAMS, JSONRPCErrorCode.INVALID_REQUEST,
      JSONRPCErrorCode.INTERNAL_ERROR]

end CursorMCP
